import Mathlib

/-
Verification of the MediRota CP-SAT solver core (src/solver/app/solver_core.py,
class RotaSolverCore) against its natural-language specification.

Shallow embedding conventions:
  * Calendar dates are proleptic-Gregorian ordinals (Python `date.toordinal`),
    so ordinal 1 is a Monday and consecutive dates differ by 1.  The ISO
    week-key string produced by `date.isocalendar()` partitions dates into
    Monday-aligned blocks of seven; two dates share an ISO (year, week) pair
    iff they share the Monday-aligned block `(d - 1) / 7`, so the embedding
    uses that number as the week key.
  * Clock times "HH:MM" are minutes after midnight (what `strptime("%H:%M")`
    yields up to the arithmetic actually performed on it).
  * Python dicts keyed by variable names are embedded as structured keys; a
    CP-SAT variable assignment ("solver state") is a `Valuation` giving each
    possible key a value.  Auxiliary integer variables that the source pins
    with an equality (`minutes_var == duration * x`) are substituted out.
  * Floats (`contractHoursPerWeek`, the division in `int(cm * (d / 7.0))`,
    `satisfied / max(1, total)`) are embedded as exact rationals; `int()` on a
    non-negative value is the floor.
-/

namespace MediRota

/-- Horizon of the request: a closed ordinal-date interval [start, stop]
(`horizon.start` / `horizon.end` in models.py; `end` is a Lean keyword). -/
structure HorizonModel where
  start : Nat
  stop : Nat
deriving DecidableEq

/-- Ward record (models.py WardModel). -/
structure WardModel where
  id : String
  name : String
deriving DecidableEq

/-- Shift-type record (models.py ShiftTypeModel); start/end as minutes after
midnight. -/
structure ShiftTypeModel where
  id : String
  code : String
  startTime : Nat
  endTime : Nat
  isNight : Bool
  durationMinutes : Nat
deriving DecidableEq

/-- Staff record (models.py StaffModel); contracted hours as an exact
rational. -/
structure StaffModel where
  id : String
  fullName : String
  job : String
  contractHoursPerWeek : ℚ
  skills : List String
  eligibleWards : List String
deriving DecidableEq

/-- Demand cell (models.py DemandModel); `requirements` is the skill → count
mapping in its iteration order. -/
structure DemandModel where
  wardId : String
  date : Nat
  slot : String
  requirements : List (String × Nat)
deriving DecidableEq

/-- Rules record (models.py RulesModel).  The solver core never reads it. -/
structure RulesModel where
  minRestHours : Int
  maxConsecutiveNights : Int
  oneShiftPerDay : Bool
deriving DecidableEq

/-- Lock record (models.py LockModel). -/
structure LockModel where
  staffId : String
  wardId : String
  date : Nat
  slot : String
deriving DecidableEq

/-- Preference record (models.py PreferenceModel). -/
structure PreferenceModel where
  staffId : String
  date : Nat
  preferOff : Bool
  preferOn : Bool
deriving DecidableEq

/-- Hint record (models.py HintModel).  `_add_hints` is `pass`. -/
structure HintModel where
  staffId : String
  wardId : String
  date : Nat
  slot : String
deriving DecidableEq

/-- The `objective` enumeration (models.py ObjectiveModel); both values are
treated identically by the core. -/
inductive ObjectiveModel where
  | min_soft_penalties
  | min_total_assignments
deriving DecidableEq

/-- Full solver request (models.py SolverRequestModel). -/
structure SolverRequestModel where
  horizon : HorizonModel
  wards : List WardModel
  shiftTypes : List ShiftTypeModel
  staff : List StaffModel
  demand : List DemandModel
  rules : RulesModel
  locks : List LockModel
  preferences : List PreferenceModel
  objective : ObjectiveModel
  timeBudgetMs : Nat
  hints : List HintModel
deriving DecidableEq

/-- Output assignment (models.py AssignmentModel). -/
structure AssignmentModel where
  staffId : String
  wardId : String
  date : Nat
  slot : String
  shiftTypeId : String
deriving DecidableEq

/-- Key of an x-variable `x_{e}_{d}_{s}_{w}`: (staffId, date, wardId, slot). -/
abbrev XKey := String × Nat × String × String

/-- Key of a y-variable `y_{e}_{d}_{s}_{w}_{k}`:
(staffId, date, wardId, slot, skill). -/
abbrev YKey := String × Nat × String × String × String

/-- Key of a u-variable `u_{d}_{s}_{w}_{k}`: (date, wardId, slot, skill). -/
abbrev UKey := Nat × String × String × String

/-- A CP-SAT solver state: a value for every possible variable key.  Keys the
model never created are simply never consulted by the constraints. -/
structure Valuation where
  x : XKey → Bool
  y : YKey → Bool
  u : UKey → Nat

/-- Numeric value of a Boolean CP-SAT variable. -/
def b2n (b : Bool) : Nat := if b then 1 else 0

/-- `_get_dates`: ordered list of ordinal dates from horizon.start to
horizon.stop inclusive (empty when stop < start). -/
def get_dates (h : HorizonModel) : List Nat :=
  (List.range (h.stop + 1 - h.start)).map (fun i => h.start + i)

/-- ISO week bin of an ordinal date: its Monday-aligned 7-day block (see the
header comment; `date.isocalendar()` partitions dates exactly this way). -/
def weekKey (d : Nat) : Nat := (d - 1) / 7

/-- Keys of `week_bins` in `_create_indices`, in first-occurrence order. -/
def weekKeys (r : SolverRequestModel) : List Nat :=
  ((get_dates r.horizon).map weekKey).eraseDups

/-- Member dates `week_bins[wk]` of one week bin, in horizon order. -/
def binDates (r : SolverRequestModel) (wk : Nat) : List Nat :=
  (get_dates r.horizon).filter (fun d => weekKey d == wk)

/-- `_collect_skills`: distinct skills mentioned by demand requirements (the
source materialises a Python set; the embedding fixes first-occurrence
order, which no claim depends on). -/
def collect_skills (r : SolverRequestModel) : List String :=
  (r.demand.bind (fun dm => dm.requirements.map (fun kv => kv.1))).eraseDups

/-- Membership in `has_demand_cell` from `_build_demand_lookup`:
the (date, ward, slot) cell appears in the demand list. -/
def hasDemand (r : SolverRequestModel) (c : Nat × String × String) : Bool :=
  r.demand.any (fun dm => dm.date == c.1 && dm.wardId == c.2.1 && dm.slot == c.2.2)

/-- Python-dict insertion: overwrite in place if the key exists, else append. -/
def insertAssoc {α β : Type} [BEq α] (l : List (α × β)) (k : α) (v : β) : List (α × β) :=
  if l.any (fun p => p.1 == k) then
    l.map (fun p => if p.1 == k then (k, v) else p)
  else l ++ [(k, v)]

/-- Python-dict lookup. -/
def lookupAssoc {α β : Type} [BEq α] (l : List (α × β)) (k : α) : Option β :=
  (l.find? (fun p => p.1 == k)).map (fun p => p.2)

/-- `demand_req` from `_build_demand_lookup`: (date, ward, slot, skill) →
required headcount, in insertion order. -/
def demand_req (r : SolverRequestModel) : List (UKey × Nat) :=
  r.demand.foldl
    (fun acc dm => dm.requirements.foldl
      (fun acc2 kv => insertAssoc acc2 (dm.date, dm.wardId, dm.slot, kv.1) kv.2) acc)
    []

/-- The x-variable keys created for one staff member, in creation order
(date, ward, slot; only cells with demand). -/
def staffXKeys (r : SolverRequestModel) (e : StaffModel) : List XKey :=
  (get_dates r.horizon).bind fun d =>
    r.wards.bind fun w =>
      r.shiftTypes.bind fun st =>
        if hasDemand r (d, w.id, st.code) then [(e.id, d, w.id, st.code)] else []

/-- Creation order of the x-variables in `_build_model` (staff, date, ward,
slot; only cells with demand).  Python's dict keeps insertion order, so this
list is also the iteration order of `x.items()` in `_extract_assignments`. -/
def xKeys (r : SolverRequestModel) : List XKey :=
  r.staff.bind fun e => staffXKeys r e

/-- Creation order of the y-variables in `_build_model` (cells with demand,
skills the staff member possesses, restricted to skills collected from
demand). -/
def yKeys (r : SolverRequestModel) : List YKey :=
  r.staff.bind fun e =>
    (get_dates r.horizon).bind fun d =>
      r.wards.bind fun w =>
        r.shiftTypes.bind fun st =>
          (collect_skills r).bind fun k =>
            if hasDemand r (d, w.id, st.code) && e.skills.contains k then
              [(e.id, d, w.id, st.code, k)]
            else []

/-- The u-variables of `_build_model` with their upper bounds
`demand_req[(d,w,s,k)]` (created only for (d, w, s, k) combinations both in
the index sets and in `demand_req`). -/
def uVars (r : SolverRequestModel) : List (UKey × Nat) :=
  (get_dates r.horizon).bind fun d =>
    r.wards.bind fun w =>
      r.shiftTypes.bind fun st =>
        (collect_skills r).bind fun k =>
          match lookupAssoc (demand_req r) (d, w.id, st.code, k) with
          | some req => [((d, w.id, st.code, k), req)]
          | none => []

/-- The keys of the u-variable dict. -/
def uKeyList (r : SolverRequestModel) : List UKey := (uVars r).map (fun kr => kr.1)

/-- `_add_feasibility_links`: for ineligible wards the x-variable is pinned to
0; otherwise each skill variable is at most x and their sum is at most x.
Constraints are only emitted for variables that exist. -/
def feasLinksOK (r : SolverRequestModel) (v : Valuation) : Bool :=
  r.staff.all fun e =>
    (get_dates r.horizon).all fun d =>
      r.shiftTypes.all fun st =>
        r.wards.all fun w =>
          if hasDemand r (d, w.id, st.code) then
            if e.eligibleWards.contains w.id then
              let sv := e.skills.filter
                (fun sk => decide ((e.id, d, w.id, st.code, sk) ∈ yKeys r))
              (sv.all fun sk =>
                !(v.y (e.id, d, w.id, st.code, sk)) || v.x (e.id, d, w.id, st.code)) &&
              (if sv.isEmpty then true
               else decide
                 ((sv.map (fun sk => b2n (v.y (e.id, d, w.id, st.code, sk)))).sum ≤
                   b2n (v.x (e.id, d, w.id, st.code))))
            else !(v.x (e.id, d, w.id, st.code))
          else true

/-- `_add_coverage_constraints_with_slack`: per (cell, skill) requirement, the
sum of eligible-staff skill variables plus the slack equals the requirement;
with no eligible staff the slack is pinned to the requirement.  The source
guards on the slack variable existing. -/
def coverageOK (r : SolverRequestModel) (v : Valuation) : Bool :=
  (demand_req r).all fun kr =>
    let eligibleVals :=
      (r.staff.filter (fun e =>
          e.skills.contains kr.1.2.2.2 && e.eligibleWards.contains kr.1.2.1)).filterMap
        (fun e =>
          if decide ((e.id, kr.1.1, kr.1.2.1, kr.1.2.2.1, kr.1.2.2.2) ∈ yKeys r) then
            some (b2n (v.y (e.id, kr.1.1, kr.1.2.1, kr.1.2.2.1, kr.1.2.2.2)))
          else none)
    if decide (kr.1 ∈ uKeyList r) then
      if eligibleVals.isEmpty then decide (v.u kr.1 = kr.2)
      else decide (eligibleVals.sum + v.u kr.1 = kr.2)
    else true

/-- Domain bounds of the slack variables: `u ∈ [0, demand_req[key]]`. -/
def uBoundsOK (r : SolverRequestModel) (v : Valuation) : Bool :=
  (uVars r).all fun kr => decide (v.u kr.1 ≤ kr.2)

/-- `_add_one_shift_per_day_constraints` (H2): per staff and date, the sum of
that day's existing x-variables is at most 1. -/
def oneShiftOK (r : SolverRequestModel) (v : Valuation) : Bool :=
  r.staff.all fun e =>
    (get_dates r.horizon).all fun d =>
      let dayVals := r.shiftTypes.bind fun st =>
        r.wards.filterMap fun w =>
          if decide ((e.id, d, w.id, st.code) ∈ xKeys r) then
            some (b2n (v.x (e.id, d, w.id, st.code)))
          else none
      if dayVals.isEmpty then true else decide (dayVals.sum ≤ 1)

/-- `_shifts_overlap_same_day`: interval intersection after rolling a night
shift's end time forward by 24 h. -/
def shifts_overlap_same_day (s1 s2 : ShiftTypeModel) : Bool :=
  let end1 : Int := (s1.endTime : Int) + (if s1.isNight then 1440 else 0)
  let end2 : Int := (s2.endTime : Int) + (if s2.isNight then 1440 else 0)
  !(decide (end1 ≤ (s2.startTime : Int)) || decide (end2 ≤ (s1.startTime : Int)))

/-- `_insufficient_rest`: the source rolls a night shift's end forward 24 h,
then compares `start2 - end1` (both on the SAME day's clock: the day-t+1
start is NOT shifted by +24 h) against a hardcoded 11 hours.  `end2` is
computed by the source but unused.  `rest_hours < 11` with integer minutes is
`rest_minutes < 660`. -/
def insufficient_rest (s1 s2 : ShiftTypeModel) : Bool :=
  let end1 : Int := (s1.endTime : Int) + (if s1.isNight then 1440 else 0)
  decide ((s2.startTime : Int) - end1 < 660)

/-- `_add_rest_constraints` (H3): pairwise exclusion for overlapping same-day
shift pairs (distinct positions i ≠ j) and for consecutive-day pairs whose
adjacency `forbidden_adjacency[s1.id][s2.id] = _insufficient_rest s1 s2` is
forbidden, over all ward pairs, for variables that exist. -/
def restOK (r : SolverRequestModel) (v : Valuation) : Bool :=
  r.staff.all fun e =>
    ((get_dates r.horizon).all fun d =>
      r.shiftTypes.enum.all fun p1 =>
        r.shiftTypes.enum.all fun p2 =>
          if (p1.1 != p2.1) && shifts_overlap_same_day p1.2 p2.2 then
            r.wards.all fun w1 =>
              r.wards.all fun w2 =>
                if decide ((e.id, d, w1.id, p1.2.code) ∈ xKeys r) &&
                   decide ((e.id, d, w2.id, p2.2.code) ∈ xKeys r) then
                  decide (b2n (v.x (e.id, d, w1.id, p1.2.code)) +
                          b2n (v.x (e.id, d, w2.id, p2.2.code)) ≤ 1)
                else true
          else true) &&
    (((get_dates r.horizon).zip (get_dates r.horizon).tail).all fun dd =>
      r.shiftTypes.all fun s1 =>
        r.shiftTypes.all fun s2 =>
          if insufficient_rest s1 s2 then
            r.wards.all fun w1 =>
              r.wards.all fun w2 =>
                if decide ((e.id, dd.1, w1.id, s1.code) ∈ xKeys r) &&
                   decide ((e.id, dd.2, w2.id, s2.code) ∈ xKeys r) then
                  decide (b2n (v.x (e.id, dd.1, w1.id, s1.code)) +
                          b2n (v.x (e.id, dd.2, w2.id, s2.code)) ≤ 1)
                else true
          else true)

/-- `int(staff.contractHoursPerWeek * 60)`: contracted minutes per week
(truncation = floor on the non-negative hours the data model allows),
computed on the reduced fraction so that the definition evaluates by kernel
reduction; `contract_minutes_eq_floor` below identifies it with the floor. -/
def contract_minutes (e : StaffModel) : Nat :=
  ((e.contractHoursPerWeek.num * 60) / (e.contractHoursPerWeek.den : Int)).toNat

/-- `int(contract_minutes * (days_in_week / 7.0))`: the prorated weekly cap
(exact rational semantics of the float computation). -/
def prorated_cap (cm days : Nat) : Nat := cm * days / 7

/-- Left-hand side of one weekly contract constraint: minutes assigned to
staff e on the dates of week bin wk (the source loops dates, shift types,
wards and sums `duration * x` for existing variables). -/
def weekLHS (r : SolverRequestModel) (v : Valuation) (e : StaffModel) (wk : Nat) : Nat :=
  ((binDates r wk).bind fun d =>
    r.shiftTypes.bind fun st =>
      r.wards.filterMap fun w =>
        if decide ((e.id, d, w.id, st.code) ∈ xKeys r) then
          some (if v.x (e.id, d, w.id, st.code) then st.durationMinutes else 0)
        else none).sum

/-- `_add_weekly_contract_hours_constraints` (H7): per staff and week bin, the
assigned minutes are at most the prorated cap (no constraint is emitted when
no variable exists, which is equivalent to 0 ≤ cap). -/
def weeklyOK (r : SolverRequestModel) (v : Valuation) : Bool :=
  r.staff.all fun e =>
    (weekKeys r).all fun wk =>
      decide (weekLHS r v e wk ≤ prorated_cap (contract_minutes e) (binDates r wk).length)

/-- A valuation satisfies every constraint `_build_model` emits (plus the
variable domain bounds of the slack variables). -/
def feasible (r : SolverRequestModel) (v : Valuation) : Bool :=
  feasLinksOK r v && coverageOK r v && uBoundsOK r v &&
  oneShiftOK r v && restOK r v && weeklyOK r v

/-- Objective weight A (unmet demand). -/
def objA : Int := 100000
/-- Objective weight B (fairness range). -/
def objB : Int := 100
/-- Objective weight C (preferences; never used by the core). -/
def objC : Int := 1
/-- Objective weight D (staff utilisation, dominant). -/
def objD : Int := 1000000

/-- The x-variable keys of one staff member with their shift durations, in
the iteration order of `_create_utilization_penalty` /
`_create_fairness_penalty` (dates, shift types, wards). -/
def eKeyDurs (r : SolverRequestModel) (e : StaffModel) : List (XKey × Nat) :=
  (get_dates r.horizon).bind fun d =>
    r.shiftTypes.bind fun st =>
      r.wards.filterMap fun w =>
        if decide ((e.id, d, w.id, st.code) ∈ xKeys r) then
          some ((e.id, d, w.id, st.code), st.durationMinutes)
        else none

/-- `total_minutes_{staff.id}`: minutes assigned to one staff member. -/
def staffMinutes (r : SolverRequestModel) (v : Valuation) (e : StaffModel) : Nat :=
  ((eKeyDurs r e).map fun kd => if v.x kd.1 then kd.2 else 0).sum

/-- Maximum of a list of naturals (AddMaxEquality over non-negative vars). -/
def natListMax (l : List Nat) : Nat := l.foldl Nat.max 0

/-- Minimum of a non-empty list of naturals (0 for the empty list, which the
source never reaches in the branch that uses it). -/
def natListMin (l : List Nat) : Nat :=
  match l with
  | [] => 0
  | a :: t => t.foldl Nat.min a

/-- `_create_fairness_penalty`: range (max - min) of per-staff minutes over
staff owning at least one x-variable; the constant 0 when fewer than two
such staff exist. -/
def fairness_penalty (r : SolverRequestModel) (v : Valuation) : Nat :=
  let withVars := r.staff.filter (fun e => !(eKeyDurs r e).isEmpty)
  if withVars.length < 2 then 0
  else natListMax (withVars.map (staffMinutes r v)) -
       natListMin (withVars.map (staffMinutes r v))

/-- `_create_utilization_penalty`: the negated total minutes over staff owning
at least one x-variable (the constant 0 when no staff does). -/
def utilization_penalty (r : SolverRequestModel) (v : Valuation) : Int :=
  let withVars := r.staff.filter (fun e => !(eKeyDurs r e).isEmpty)
  if withVars.isEmpty then 0
  else -(((withVars.map (staffMinutes r v)).sum : Int))

/-- `_set_objective`: A·Σu + D·utilisation + B·fairness, each term guarded on
the corresponding variable family being non-empty. -/
def objective (r : SolverRequestModel) (v : Valuation) : Int :=
  (if (uVars r).isEmpty then 0
   else objA * (((uVars r).map (fun kr => v.u kr.1)).sum : Int)) +
  (if (xKeys r).isEmpty then 0 else objD * utilization_penalty r v) +
  (if (xKeys r).isEmpty then 0 else objB * (fairness_penalty r v : Int))

/-- An engine solution: it satisfies the constraints and minimises the
objective among all constraint-satisfying valuations. -/
def OptimalValuation (r : SolverRequestModel) (v : Valuation) : Prop :=
  feasible r v = true ∧ ∀ v' : Valuation, feasible r v' = true → objective r v ≤ objective r v'

/-- `_extract_assignments`: one AssignmentModel per x-variable valued 1, in
the dict's insertion (= creation) order, with the shift-type id resolved as
the first shift type whose code equals the slot. -/
def extract (r : SolverRequestModel) (v : Valuation) : List AssignmentModel :=
  (xKeys r).filterMap fun k =>
    if v.x k then
      match r.shiftTypes.find? (fun st => st.code == k.2.2.2) with
      | some st =>
          some { staffId := k.1, wardId := k.2.2.1, date := k.2.1,
                 slot := k.2.2.2, shiftTypeId := st.id }
      | none => none
    else none

/-- `_total_required` on a requirements mapping. -/
def totalRequired (reqs : List (String × Nat)) : Nat := (reqs.map (fun kv => kv.2)).sum

/-- `assigned_by_skill[(d, w, s, k)]` in `_create_assignments_summary`: the
sum of the skill variables of staff possessing the skill (variables that
exist). -/
def assigned_by_skill (r : SolverRequestModel) (v : Valuation) (key : UKey) : Nat :=
  ((r.staff.filter (fun e => e.skills.contains key.2.2.2)).map fun e =>
    if decide ((e.id, key.1, key.2.1, key.2.2.1, key.2.2.2) ∈ yKeys r) then
      b2n (v.y (e.id, key.1, key.2.1, key.2.2.1, key.2.2.2))
    else 0).sum

/-- The fields of the summary dict of `_create_assignments_summary` that the
claims reference (dates_histogram, cell_fill, staff_minutes, staff_shifts,
week_caps, per_date, fairness_stats and unfilled are omitted). -/
structure SummaryModel where
  total_required : Nat
  total_assigned : Nat
  total_unmet : Nat
deriving DecidableEq

/-- `total_unmet` of `_create_assignments_summary`: over the demand list and
each of its skill requirements, `max(0, required - assigned)` (Nat
subtraction). -/
def total_unmet_calc (r : SolverRequestModel) (v : Valuation) : Nat :=
  (r.demand.map fun dm =>
    (dm.requirements.map fun kv =>
      kv.2 - assigned_by_skill r v (dm.date, dm.wardId, dm.slot, kv.1)).sum).sum

/-- The claims-relevant projection of `_create_assignments_summary`. -/
def create_summary (r : SolverRequestModel) (v : Valuation)
    (assignments : List AssignmentModel) : SummaryModel :=
  { total_required := (r.demand.map (fun dm => totalRequired dm.requirements)).sum
    total_assigned := assignments.length
    total_unmet := total_unmet_calc r v }

/-- Diagnostics payload (models.py DiagnosticsModel restricted to the fields
the core fills in `solve`). -/
structure DiagnosticsModel where
  infeasible : Bool
  notes : List String
  summary : SummaryModel
deriving DecidableEq

/-- Classification of the CP-SAT engine's return status (the engine is
external; the core receives this status from `solver.Solve`). -/
inductive EngineStatus where
  | optimal
  | feasible
  | infeasible
  | unknown
deriving DecidableEq

/-- The assignment list `solve` returns: extraction runs on the incumbent
valuation regardless of the engine status ("Extract assignments regardless of
status"). -/
def solveAssignments (r : SolverRequestModel) (v : Valuation) : List AssignmentModel :=
  extract r v

/-- The diagnostics `solve` returns: `infeasible` is the literal False and the
notes are a fixed constant, whatever the engine status. -/
def solveDiagnostics (r : SolverRequestModel) (_st : EngineStatus) (v : Valuation) :
    DiagnosticsModel :=
  { infeasible := false
    notes := ["Validation temporarily disabled"]
    summary := create_summary r v (extract r v) }

/-- Codes of the night shift types (`night_shift_codes`). -/
def nightCodes (r : SolverRequestModel) : List String :=
  (r.shiftTypes.filter (fun st => st.isNight)).map (fun st => st.code)

/-- Python-dict counter increment: bump in place if present, else append 1. -/
def incAssoc (l : List (String × Nat)) (k : String) : List (String × Nat) :=
  if l.any (fun p => p.1 == k) then
    l.map (fun p => if p.1 == k then (p.1, p.2 + 1) else p)
  else l ++ [(k, 1)]

/-- `night_shifts_per_staff.values()`: night-assignment counts, one entry per
staff member holding at least one night assignment. -/
def nightCounts (r : SolverRequestModel) (asgs : List AssignmentModel) : List Nat :=
  (asgs.foldl
    (fun acc a => if (nightCodes r).contains a.slot then incAssoc acc a.staffId else acc)
    []).map (fun p => p.2)

/-- Mean of a list of naturals as a rational (0 for the empty list). -/
def popMean (l : List Nat) : ℚ := ((l.map (fun n => (n : ℚ))).sum) / l.length

/-- Population variance of a list of naturals (`np.std` squared). -/
def popVariance (l : List Nat) : ℚ :=
  if l.length = 0 then 0
  else ((l.map (fun n => ((n : ℚ) - popMean l) ^ 2)).sum) / l.length

/-- `fairness_std` in `_calculate_metrics`: `np.std` of the night counts when
more than one staff member has night shifts, else 0.0. -/
noncomputable def fairnessNightStd (r : SolverRequestModel)
    (asgs : List AssignmentModel) : ℝ :=
  if 1 < (nightCounts r asgs).length then
    Real.sqrt ((popVariance (nightCounts r asgs) : ℚ) : ℝ)
  else 0

/-- A preference has a matching assignment (same staff and date). -/
def prefMatch (asgs : List AssignmentModel) (p : PreferenceModel) : Bool :=
  (asgs.find? (fun a => a.staffId == p.staffId && a.date == p.date)).isSome

/-- `satisfied_preferences` in `_calculate_metrics`: per preference with a
matching assignment, +1 when preferOn, else -1 when preferOff. -/
def satisfied_preferences (r : SolverRequestModel) (asgs : List AssignmentModel) : Int :=
  r.preferences.foldl
    (fun acc p =>
      if prefMatch asgs p then
        (if p.preferOn then acc + 1 else if p.preferOff then acc - 1 else acc)
      else acc)
    0

/-- `preference_satisfaction = max(0, satisfied / max(1, total))`. -/
def preference_satisfaction (r : SolverRequestModel) (asgs : List AssignmentModel) : ℚ :=
  max 0 ((satisfied_preferences r asgs : ℚ) / (max 1 r.preferences.length : ℚ))

/-- Metrics payload of `_calculate_metrics` (hardViolations is the literal
0). -/
structure MetricsModel where
  hardViolations : Nat
  solveMs : Nat
  fairnessNightStd : ℝ
  preferenceSatisfaction : ℚ

/-- `_calculate_metrics` assembled. -/
noncomputable def calculate_metrics (r : SolverRequestModel)
    (asgs : List AssignmentModel) (t : Nat) : MetricsModel :=
  { hardViolations := 0
    solveMs := t
    fairnessNightStd := fairnessNightStd r asgs
    preferenceSatisfaction := preference_satisfaction r asgs }

/-! Definitions taken from the specification's words (for refinement
comparisons against the code-derived definitions above). -/

/-- Forbidden adjacency per the spec sentence behind claim C1: placing s1 on
day t and s2 on day t+1 leaves strictly less than minRestHours of clock time
between s1's end (night end rolled +24 h) and s2's start taken on day t+1,
i.e. +24 h after day t's clock. -/
def specForbidden (minRestHours : Int) (s1 s2 : ShiftTypeModel) : Bool :=
  let end1 : Int := (s1.endTime : Int) + (if s1.isNight then 1440 else 0)
  decide (((s2.startTime : Int) + 1440) - end1 < minRestHours * 60)

/-- Honoured prefer-on preferences: preferOn set and an assignment matches. -/
def honouredOn (r : SolverRequestModel) (asgs : List AssignmentModel) : Nat :=
  (r.preferences.filter (fun p => p.preferOn && prefMatch asgs p)).length

/-- Honoured prefer-off preferences: preferOff set and no assignment
matches (the staff member is actually off that day). -/
def honouredOff (r : SolverRequestModel) (asgs : List AssignmentModel) : Nat :=
  (r.preferences.filter (fun p => p.preferOff && !(prefMatch asgs p))).length

/-- Violated prefer-off preferences: preferOff set, preferOn not set (the
source's elif), and an assignment matches. -/
def violatedOff (r : SolverRequestModel) (asgs : List AssignmentModel) : Nat :=
  (r.preferences.filter (fun p => p.preferOff && !p.preferOn && prefMatch asgs p)).length

/-- The preference-satisfaction metric per the spec sentence behind claim C7:
(honoured prefer-on minus honoured prefer-off) over the total number of
preferences, clamped to [0, 1]. -/
def specPreferenceSatisfaction (r : SolverRequestModel)
    (asgs : List AssignmentModel) : ℚ :=
  min 1 (max 0 (((honouredOn r asgs : ℚ) - (honouredOff r asgs : ℚ)) /
    (r.preferences.length : ℚ)))

/-- Lexicographic strict order on character lists (String's `<` spelled out
on code points, so that it evaluates by kernel reduction). -/
def charListLt : List Char → List Char → Bool
  | [], [] => false
  | [], _ :: _ => true
  | _ :: _, [] => false
  | c :: cs, d :: ds =>
      if c.toNat < d.toNat then true
      else if d.toNat < c.toNat then false
      else charListLt cs ds

/-- Lexicographic strict order on strings. -/
def strLt (a b : String) : Bool := charListLt a.toList b.toList

/-- Lexicographic non-strict order on strings. -/
def strLe (a b : String) : Bool := strLt a b || a == b

/-- Lexicographic comparison on the sort key (staff, date, slot, ward) named
by claim C8. -/
def assignKeyLe (a b : AssignmentModel) : Bool :=
  if a.staffId ≠ b.staffId then strLt a.staffId b.staffId
  else if a.date ≠ b.date then decide (a.date < b.date)
  else if a.slot ≠ b.slot then strLt a.slot b.slot
  else strLe a.wardId b.wardId

/-- The list is sorted ascending under `assignKeyLe`. -/
def sortedByKey : List AssignmentModel → Bool
  | [] => true
  | [_] => true
  | a :: b :: t => assignKeyLe a b && sortedByKey (b :: t)

/-- The assignment the extractor emits for a key (with the junk id "" in the
unreachable case of a slot without a shift type). -/
def mkAssign (r : SolverRequestModel) (k : XKey) : AssignmentModel :=
  match r.shiftTypes.find? (fun st => st.code == k.2.2.2) with
  | some st =>
      { staffId := k.1, wardId := k.2.2.1, date := k.2.1,
        slot := k.2.2.2, shiftTypeId := st.id }
  | none =>
      { staffId := k.1, wardId := k.2.2.1, date := k.2.1,
        slot := k.2.2.2, shiftTypeId := "" }

/-- Duration of the first shift type carrying a slot code (0 if none). -/
def durOfSlot (r : SolverRequestModel) (s : String) : Nat :=
  match r.shiftTypes.find? (fun st => st.code == s) with
  | some st => st.durationMinutes
  | none => 0

/-- Duration of an assignment, resolved from its slot code exactly as the
extractor resolves the shift type. -/
def durByCode (r : SolverRequestModel) (a : AssignmentModel) : Nat :=
  durOfSlot r a.slot

/-- The weekly cap of claim C5: `cap(e, b) = floor(contract_minutes(e) *
|Db| / 7)` with `contract_minutes(e) = contractHoursPerWeek * 60` taken
exactly. -/
def specWeekCap (e : StaffModel) (days : Nat) : Nat :=
  (Int.floor (e.contractHoursPerWeek * 60 * days / 7)).toNat

/-- Minutes of the assignments of one staff member falling in one week bin
(the left-hand side of claim C5's inequality). -/
def assignedWeekMinutes (r : SolverRequestModel) (e : StaffModel) (wk : Nat)
    (asgs : List AssignmentModel) : Nat :=
  ((asgs.filter (fun a => a.staffId == e.id && weekKey a.date == wk)).map
    (durByCode r)).sum

/-! Concrete instances used by counterexamples and witnesses. -/

/-- A Monday ordinal used as the single-day horizon of the samples. -/
def d0 : Nat := 8

/-- An ordinary 08:00-16:00 day shift of 480 minutes. -/
def dayShift : ShiftTypeModel :=
  { id := "st-day", code := "DAY", startTime := 480, endTime := 960,
    isNight := false, durationMinutes := 480 }

/-- Default rules record (minRestHours 11, as in the spec's S-scenarios). -/
def rulesDefault : RulesModel :=
  { minRestHours := 11, maxConsecutiveNights := 3, oneShiftPerDay := true }

/-- The S2 staff member: ward-eligible but with skill set {MRI} only.  The
contracted 84 h/week make the one-day prorated cap 720 ≥ 480 minutes, as the
S1 expectation (one assignment) requires. -/
def alice : StaffModel :=
  { id := "alice", fullName := "Alice", job := "nurse",
    contractHoursPerWeek := 84, skills := ["MRI"], eligibleWards := ["W1"] }

/-- The S2 request: one ward, one date, one shift type, demand
{General: 1}, one ward-eligible staff member with skills {MRI}. -/
def r2 : SolverRequestModel :=
  { horizon := { start := d0, stop := d0 }
    wards := [{ id := "W1", name := "Ward 1" }]
    shiftTypes := [dayShift]
    staff := [alice]
    demand := [{ wardId := "W1", date := d0, slot := "DAY",
                 requirements := [("General", 1)] }]
    rules := rulesDefault
    locks := []
    preferences := []
    objective := ObjectiveModel.min_soft_penalties
    timeBudgetMs := 30000
    hints := [] }

/-- The slack key of the single S2 requirement. -/
def uk2 : UKey := (d0, "W1", "DAY", "General")

/-- The x-key of the single S2 cell for alice. -/
def kx2 : XKey := ("alice", d0, "W1", "DAY")

/-- The optimal S2 valuation: alice assigned, slack 1. -/
def vStar : Valuation :=
  { x := fun _ => true, y := fun _ => false, u := fun _ => 1 }

/-- The assignment extracted for alice in the S2 scenario. -/
def asgAlice : AssignmentModel :=
  { staffId := "alice", wardId := "W1", date := d0, slot := "DAY",
    shiftTypeId := "st-day" }

/-- An all-zero valuation. -/
def v0 : Valuation :=
  { x := fun _ => false, y := fun _ => false, u := fun _ => 0 }

/-- A request with one lock but an empty demand list: its only x-variable
would be for a cell without demand, so no variable exists and the lock
cannot be honoured. -/
def r3 : SolverRequestModel :=
  { horizon := { start := d0, stop := d0 }
    wards := [{ id := "W1", name := "Ward 1" }]
    shiftTypes := [dayShift]
    staff := [alice]
    demand := []
    rules := rulesDefault
    locks := [{ staffId := "alice", wardId := "W1", date := d0, slot := "DAY" }]
    preferences := []
    objective := ObjectiveModel.min_soft_penalties
    timeBudgetMs := 30000
    hints := [] }

/-- A request with an empty demand list and no locks (claim C10 witness). -/
def rEmptyDemand : SolverRequestModel :=
  { horizon := { start := d0, stop := d0 }
    wards := [{ id := "W1", name := "Ward 1" }]
    shiftTypes := [dayShift]
    staff := [alice]
    demand := []
    rules := rulesDefault
    locks := []
    preferences := []
    objective := ObjectiveModel.min_soft_penalties
    timeBudgetMs := 30000
    hints := [] }

/-- A staff member whose id sorts after "alice" but who appears first in the
request's staff list. -/
def zed : StaffModel :=
  { id := "zed", fullName := "Zed", job := "nurse",
    contractHoursPerWeek := 84, skills := ["General"], eligibleWards := ["W1"] }

/-- Alice with skill General (for the C8 scenario). -/
def aliceGen : StaffModel :=
  { id := "alice", fullName := "Alice", job := "nurse",
    contractHoursPerWeek := 84, skills := ["General"], eligibleWards := ["W1"] }

/-- Request with staff listed in the order [zed, alice] and demand 2, so
that both can be assigned on the same day. -/
def r8 : SolverRequestModel :=
  { horizon := { start := d0, stop := d0 }
    wards := [{ id := "W1", name := "Ward 1" }]
    shiftTypes := [dayShift]
    staff := [zed, aliceGen]
    demand := [{ wardId := "W1", date := d0, slot := "DAY",
                 requirements := [("General", 2)] }]
    rules := rulesDefault
    locks := []
    preferences := []
    objective := ObjectiveModel.min_soft_penalties
    timeBudgetMs := 30000
    hints := [] }

/-- Valuation assigning both zed and alice (skill variables 0, slack 2). -/
def v8 : Valuation :=
  { x := fun _ => true, y := fun _ => false, u := fun _ => 2 }

/-- Preferences for the C7 scenario: alice prefers to be on, bob prefers to
be off, on the same date. -/
def r7 : SolverRequestModel :=
  { horizon := { start := d0, stop := d0 }
    wards := [{ id := "W1", name := "Ward 1" }]
    shiftTypes := [dayShift]
    staff := [alice]
    demand := [{ wardId := "W1", date := d0, slot := "DAY",
                 requirements := [("General", 1)] }]
    rules := rulesDefault
    locks := []
    preferences :=
      [{ staffId := "alice", date := d0, preferOff := false, preferOn := true },
       { staffId := "bob", date := d0, preferOff := true, preferOn := false }]
    objective := ObjectiveModel.min_soft_penalties
    timeBudgetMs := 30000
    hints := [] }

/-- Assignments honouring alice's prefer-on and bob's prefer-off. -/
def a7 : List AssignmentModel := [asgAlice]

/-! Helper lemmas. -/

/-- The integer form of `contract_minutes` is the floor of the exact product
`contractHoursPerWeek * 60`. -/
lemma contract_minutes_eq_floor (e : StaffModel) :
    contract_minutes e = (Int.floor (e.contractHoursPerWeek * 60)).toNat := by
  have h : e.contractHoursPerWeek * 60 =
      ((e.contractHoursPerWeek.num * 60 : ℤ) : ℚ) /
        ((e.contractHoursPerWeek.den : ℕ) : ℚ) := by
    push_cast
    field_simp
    rw [mul_comm, ← mul_assoc, Rat.den_mul_eq_num, mul_comm]
  rw [contract_minutes, h, Rat.floor_intCast_div_natCast]

/-- The S2 objective in closed form: A times the slack minus D times the
assigned minutes (the fairness term is the constant 0 for a single staff
member). -/
lemma obj_r2_eval (v : Valuation) : objective r2 v =
    100000 * (v.u uk2 : Int) - 1000000 * ((if v.x kx2 then 480 else 0 : Nat) : Int) := by
  have h : objective r2 v =
      objA * ((v.u uk2 + 0 : Nat) : Int) +
      objD * (-(((if v.x kx2 then 480 else 0) + 0 + 0 : Nat) : Int)) +
      objB * ((0 : Nat) : Int) := rfl
  rw [h]
  simp [objA, objB, objD]
  ring

/-- In the S2 model every feasible valuation has slack 1: no staff member
carries the demanded skill, so coverage pins u to the requirement. -/
lemma feasible_r2_u (v : Valuation) (h : feasible r2 v = true) : v.u uk2 = 1 := by
  have hfc : coverageOK r2 v = true := by
    simp only [feasible, Bool.and_eq_true] at h
    exact h.1.1.1.1.2
  have h' : (decide (v.u (d0, "W1", "DAY", "General") = 1) && true) = true := hfc
  simpa using h'

/-- Assigning alice is optimal for S2: the dominant utilisation term rewards
the assignment while the slack is pinned anyway. -/
lemma vStar_opt : OptimalValuation r2 vStar := by
  refine ⟨by decide, fun v' hv' => ?_⟩
  rw [obj_r2_eval, obj_r2_eval, feasible_r2_u v' hv']
  simp only [vStar]
  by_cases hb : v'.x kx2 <;> simp [hb]

/-- Every S2-optimal valuation assigns alice. -/
lemma opt_x_true (v : Valuation) (hv : OptimalValuation r2 v) : v.x kx2 = true := by
  have hle := hv.2 vStar (by decide)
  rw [obj_r2_eval, obj_r2_eval, feasible_r2_u v hv.1] at hle
  simp only [vStar] at hle
  by_contra hb
  simp only [Bool.not_eq_true] at hb
  rw [hb] at hle
  norm_num at hle

/-- Every S2-optimal valuation extracts exactly alice's assignment. -/
lemma opt_extract (v : Valuation) (hv : OptimalValuation r2 v) :
    solveAssignments r2 v = [asgAlice] := by
  have hx : v.x ("alice", (8 : Nat), "W1", "DAY") = true := opt_x_true v hv
  have h : extract r2 v = (xKeys r2).filterMap fun k =>
      if v.x k then
        match r2.shiftTypes.find? (fun st => st.code == k.2.2.2) with
        | some st =>
            some { staffId := k.1, wardId := k.2.2.1, date := k.2.1,
                   slot := k.2.2.2, shiftTypeId := st.id }
        | none => none
      else none := rfl
  have hxk : xKeys r2 = [kx2] := by decide
  have hfind : r2.shiftTypes.find? (fun st => st.code == "DAY") = some dayShift := by decide
  show extract r2 v = [asgAlice]
  rw [h, hxk]
  simp [List.filterMap_cons, kx2, d0, hx, hfind, asgAlice, dayShift]

/-- The S2 unmet total is 1 whatever the valuation: no staff member with the
demanded skill exists, so the assigned-by-skill sum is empty. -/
lemma unmet_r2 (v : Valuation) : total_unmet_calc r2 v = 1 := rfl

/-- A bind whose body is everywhere empty is empty. -/
lemma bind_nil_of_forall {α β : Type} (l : List α) (f : α → List β)
    (h : ∀ a ∈ l, f a = []) : l.bind f = [] := by
  induction l with
  | nil => rfl
  | cons a t ih =>
    have h1 : f a = [] := h a (List.mem_cons_self a t)
    have h2 : t.bind f = [] := ih (fun b hb => h b (List.mem_cons_of_mem a hb))
    calc (a :: t).bind f = f a ++ t.bind f := rfl
    _ = [] := by rw [h1, h2]; rfl

/-- Lists of length at most one have zero population variance. -/
lemma popVariance_small (l : List Nat) (h : l.length ≤ 1) : popVariance l = 0 := by
  match l with
  | [] => simp [popVariance]
  | [c] =>
      simp [popVariance, popMean]
  | a :: b :: t => simp at h

/-- Decomposition of membership in the x-key list. -/
lemma mem_xKeys_elim {r : SolverRequestModel} {k : XKey} (hk : k ∈ xKeys r) :
    ∃ e ∈ r.staff, ∃ d ∈ get_dates r.horizon, ∃ w ∈ r.wards, ∃ st ∈ r.shiftTypes,
      k = (e.id, d, w.id, st.code) ∧ hasDemand r (d, w.id, st.code) = true := by
  simp only [xKeys, staffXKeys, List.mem_bind] at hk
  obtain ⟨e, he, d, hd, w, hw, st, hst, hk⟩ := hk
  by_cases hdem : hasDemand r (d, w.id, st.code) = true
  · rw [if_pos hdem, List.mem_singleton] at hk
    exact ⟨e, he, d, hd, w, hw, st, hst, hk, hdem⟩
  · rw [if_neg hdem] at hk
    exact absurd hk (List.not_mem_nil k)

/-- Every created key's slot code resolves to some shift type. -/
lemma find_isSome_of_mem_xKeys (r : SolverRequestModel) {k : XKey} (hk : k ∈ xKeys r) :
    (r.shiftTypes.find? (fun st => st.code == k.2.2.2)).isSome := by
  obtain ⟨e, _, d, _, w, _, st, hst, hkeq, _⟩ := mem_xKeys_elim hk
  subst hkeq
  rw [List.find?_isSome]
  exact ⟨st, hst, by simp⟩

/-- The extractor equals the filter-then-emit form over the creation-order
key list (resolution never fails for created keys). -/
lemma extract_eq_map (r : SolverRequestModel) (v : Valuation) :
    extract r v = ((xKeys r).filter (fun k => v.x k)).map (mkAssign r) := by
  have main : ∀ l : List XKey,
      (∀ k ∈ l, (r.shiftTypes.find? (fun st => st.code == k.2.2.2)).isSome) →
      (l.filterMap fun k =>
        if v.x k then
          match r.shiftTypes.find? (fun st => st.code == k.2.2.2) with
          | some st =>
              some { staffId := k.1, wardId := k.2.2.1, date := k.2.1,
                     slot := k.2.2.2, shiftTypeId := st.id }
          | none => none
        else none) =
      (l.filter (fun k => v.x k)).map (mkAssign r) := by
    intro l hl
    induction l with
    | nil => rfl
    | cons a t ih =>
      obtain ⟨st, hst⟩ := Option.isSome_iff_exists.mp (hl a (List.mem_cons_self a t))
      have iht := ih (fun b hb => hl b (List.mem_cons_of_mem a hb))
      by_cases hxa : v.x a = true
      · simp only [List.filterMap_cons, List.filter_cons, hxa, if_true, hst, iht,
          List.map_cons, mkAssign]
      · simp [List.filterMap_cons, List.filter_cons, hxa, iht]
  exact main (xKeys r) (fun k hk => find_isSome_of_mem_xKeys r hk)

/-- The fold of `satisfied_preferences` counts honoured prefer-on minus
violated prefer-off. -/
lemma fold_sat (asgs : List AssignmentModel) (prefs : List PreferenceModel) (acc : Int) :
    prefs.foldl (fun acc2 p =>
      if prefMatch asgs p then
        (if p.preferOn then acc2 + 1 else if p.preferOff then acc2 - 1 else acc2)
      else acc2) acc =
    acc + ((prefs.filter (fun p => p.preferOn && prefMatch asgs p)).length : Int)
        - ((prefs.filter (fun p => p.preferOff && !p.preferOn && prefMatch asgs p)).length : Int) := by
  induction prefs generalizing acc with
  | nil => simp
  | cons p t ih =>
    simp only [List.foldl_cons, List.filter_cons]
    by_cases hm : prefMatch asgs p = true <;> by_cases hon : p.preferOn = true <;>
      by_cases hoff : p.preferOff = true <;>
        simp only [hm, hon, hoff, Bool.and_true, Bool.and_false, Bool.true_and,
          Bool.false_and, Bool.not_true, Bool.not_false, if_true, if_false,
          Bool.and_self, List.length_cons, ih] <;> push_cast <;> ring

/-- `satisfied_preferences` in counting form. -/
lemma satisfied_preferences_eq (r : SolverRequestModel) (asgs : List AssignmentModel) :
    satisfied_preferences r asgs =
      (honouredOn r asgs : Int) - (violatedOff r asgs : Int) := by
  unfold satisfied_preferences honouredOn violatedOff
  simpa using fold_sat asgs r.preferences 0



lemma sum_map_add {α : Type} (l : List α) (f g : α → ℕ) :
    (l.map (fun a => f a + g a)).sum = (l.map f).sum + (l.map g).sum := by
  induction l with
  | nil => rfl
  | cons a t ih => simp [ih]; omega

lemma sum_bind {α β : Type} (l : List α) (f : α → List β) (g : β → ℕ) :
    ((l.bind f).map g).sum = (l.map (fun a => ((f a).map g).sum)).sum := by
  induction l with
  | nil => rfl
  | cons a t ih => simp [List.cons_bind, ih]

lemma sum_filter {α : Type} (l : List α) (p : α → Bool) (g : α → ℕ) :
    ((l.filter p).map g).sum = (l.map (fun a => if p a then g a else 0)).sum := by
  induction l with
  | nil => rfl
  | cons a t ih =>
    by_cases hp : p a = true <;> simp [List.filter_cons, hp, ih]

lemma sum_filterMap_ite {α : Type} (l : List α) (p : α → Bool) (g : α → ℕ) :
    ((l.filterMap (fun a => if p a then some (g a) else none)).sum) =
      (l.map (fun a => if p a then g a else 0)).sum := by
  induction l with
  | nil => rfl
  | cons a t ih =>
    by_cases hp : p a = true <;> simp [List.filterMap_cons, hp, ih]

lemma sum_map_comm {α β : Type} (l1 : List α) (l2 : List β) (f : α → β → ℕ) :
    (l1.map (fun a => (l2.map (f a)).sum)).sum =
      (l2.map (fun b => (l1.map (fun a => f a b)).sum)).sum := by
  induction l1 with
  | nil => simp
  | cons a t ih =>
    simp only [List.map_cons, List.sum_cons, ih]
    exact (sum_map_add l2 (fun b => f a b) (fun b => (t.map (fun a => f a b)).sum)).symm

lemma prorated_le_spec (e : StaffModel) (days : Nat) :
    prorated_cap (contract_minutes e) days ≤ specWeekCap e days := by
  have hcm : contract_minutes e = Nat.floor (e.contractHoursPerWeek * 60) := by
    rw [contract_minutes_eq_floor, Int.floor_toNat]
  rw [hcm, prorated_cap, specWeekCap, Int.floor_toNat]
  rcases le_or_lt 0 (e.contractHoursPerWeek * 60) with hq | hq
  · have h1 : Nat.floor (e.contractHoursPerWeek * 60) * days / 7 =
        Nat.floor (((Nat.floor (e.contractHoursPerWeek * 60) * days : ℕ) : ℚ) / ((7:ℕ) : ℚ)) := by
      rw [Nat.floor_div_nat, Nat.floor_natCast]
    rw [h1]
    apply Nat.floor_mono
    have h7 : ((7:ℕ) : ℚ) = (7 : ℚ) := by norm_num
    rw [h7, div_le_div_iff_of_pos_right (by norm_num : (0:ℚ) < 7)]
    push_cast
    exact mul_le_mul_of_nonneg_right (Nat.floor_le hq) (Nat.cast_nonneg days)
  · rw [Nat.floor_of_nonpos hq.le, Nat.zero_mul, Nat.zero_div]
    exact Nat.zero_le _



lemma staffXKeys_staffId {r : SolverRequestModel} {e : StaffModel} {k : XKey}
    (hk : k ∈ staffXKeys r e) : k.1 = e.id := by
  simp only [staffXKeys, List.mem_bind] at hk
  obtain ⟨d, _, w, _, st, _, hk⟩ := hk
  by_cases hdem : hasDemand r (d, w.id, st.code) = true
  · rw [if_pos hdem, List.mem_singleton] at hk
    rw [hk]
  · rw [if_neg hdem] at hk
    exact absurd hk (List.not_mem_nil k)

lemma mem_xKeys_iff {r : SolverRequestModel} {e : StaffModel} {d : Nat}
    {w : WardModel} {st : ShiftTypeModel} (he : e ∈ r.staff)
    (hd : d ∈ get_dates r.horizon) (hw : w ∈ r.wards) (hst : st ∈ r.shiftTypes) :
    ((e.id, d, w.id, st.code) ∈ xKeys r) ↔ hasDemand r (d, w.id, st.code) = true := by
  constructor
  · intro hk
    obtain ⟨e', _, d', _, w', _, st', _, hkeq, hdem⟩ := mem_xKeys_elim hk
    simp only [Prod.mk.injEq] at hkeq
    obtain ⟨_, hdeq, hweq, hseq⟩ := hkeq
    rw [← hdeq, ← hweq, ← hseq] at hdem
    exact hdem
  · intro hdem
    simp only [xKeys, staffXKeys, List.mem_bind]
    exact ⟨e, he, d, hd, w, hw, st, hst, by simp [hdem]⟩

lemma find_code_self {r : SolverRequestModel}
    (hcodes : (r.shiftTypes.map (fun st => st.code)).Nodup)
    {st : ShiftTypeModel} (hst : st ∈ r.shiftTypes) :
    r.shiftTypes.find? (fun s => s.code == st.code) = some st := by
  have main : ∀ (l : List ShiftTypeModel), (l.map (fun s => s.code)).Nodup → st ∈ l →
      l.find? (fun s => s.code == st.code) = some st := by
    intro l
    induction l with
    | nil => intro _ h; exact absurd h (List.not_mem_nil st)
    | cons a t ih =>
      intro hnd hmem
      simp only [List.map_cons, List.nodup_cons] at hnd
      by_cases hac : a.code == st.code
      · have hae : a = st := by
          rcases List.mem_cons.mp hmem with h | h
          · exact h.symm
          · exfalso
            apply hnd.1
            have : a.code = st.code := by simpa using hac
            rw [this]
            exact List.mem_map_of_mem (fun s => s.code) h
        have hfc : List.find? (fun s => s.code == st.code) (a :: t) = some a := by
          simp only [List.find?_cons, hac, cond_true]
        rw [hfc, hae]
      · have hmem' : st ∈ t := by
          rcases List.mem_cons.mp hmem with h | h
          · exfalso; apply hac; rw [h]; simp
          · exact h
        have hacf : (a.code == st.code) = false := by
          simpa using hac
        have hfc : List.find? (fun s => s.code == st.code) (a :: t) =
            List.find? (fun s => s.code == st.code) t := by
          simp only [List.find?_cons, hacf, cond_false]
        rw [hfc]
        exact ih hnd.2 hmem'
  exact main r.shiftTypes hcodes hst

lemma durOfSlot_eq {r : SolverRequestModel}
    (hcodes : (r.shiftTypes.map (fun st => st.code)).Nodup)
    {st : ShiftTypeModel} (hst : st ∈ r.shiftTypes) :
    durOfSlot r st.code = st.durationMinutes := by
  rw [durOfSlot, find_code_self hcodes hst]

lemma mkAssign_staffId (r : SolverRequestModel) (k : XKey) :
    (mkAssign r k).staffId = k.1 := by
  unfold mkAssign
  cases r.shiftTypes.find? (fun st => st.code == k.2.2.2) <;> rfl

lemma mkAssign_date (r : SolverRequestModel) (k : XKey) :
    (mkAssign r k).date = k.2.1 := by
  unfold mkAssign
  cases r.shiftTypes.find? (fun st => st.code == k.2.2.2) <;> rfl

lemma mkAssign_slot (r : SolverRequestModel) (k : XKey) :
    (mkAssign r k).slot = k.2.2.2 := by
  unfold mkAssign
  cases r.shiftTypes.find? (fun st => st.code == k.2.2.2) <;> rfl



lemma sum_congr {α : Type} {l : List α} {f g : α → ℕ}
    (h : ∀ a ∈ l, f a = g a) : (l.map f).sum = (l.map g).sum := by
  rw [List.map_congr_left h]

lemma sum_single {α : Type} (g : α → ℕ) (key : α → String) (e : α) :
    ∀ l : List α, (l.map key).Nodup → e ∈ l →
      (∀ e' ∈ l, key e' ≠ key e → g e' = 0) → (l.map g).sum = g e := by
  intro l
  induction l with
  | nil => intro _ h; cases h
  | cons a t ih =>
    intro hnd hmem hz
    simp only [List.map_cons, List.nodup_cons] at hnd
    simp only [List.map_cons, List.sum_cons]
    rcases List.mem_cons.mp hmem with heq | hmem'
    · subst heq
      have hsum : (t.map g).sum = 0 := by
        apply List.sum_eq_zero
        intro x hx
        obtain ⟨y, hy, hyx⟩ := List.mem_map.mp hx
        rw [← hyx]
        apply hz y (List.mem_cons_of_mem _ hy)
        intro hkey
        exact hnd.1 (hkey ▸ List.mem_map_of_mem key hy)
      rw [hsum]
      omega
    · have hga : g a = 0 := by
        apply hz a (List.mem_cons_self _ _)
        intro hkey
        apply hnd.1
        rw [hkey]
        exact List.mem_map_of_mem key hmem'
      rw [hga, ih hnd.2 hmem' (fun x hx h => hz x (List.mem_cons_of_mem _ hx) h)]
      omega

lemma assigned_sum_general (r : SolverRequestModel) (v : Valuation) (e : StaffModel)
    (wk : Nat) (l : List XKey) :
    ((((l.filter (fun k => v.x k)).map (mkAssign r)).filter
        (fun a => a.staffId == e.id && weekKey a.date == wk)).map (durByCode r)).sum =
    (l.map (fun k => if v.x k && (k.1 == e.id) && (weekKey k.2.1 == wk)
        then durOfSlot r k.2.2.2 else 0)).sum := by
  induction l with
  | nil => rfl
  | cons a t ih =>
    by_cases h1 : v.x a = true
    · by_cases h2 : ((a.1 == e.id) && (weekKey a.2.1 == wk)) = true
      · simp only [List.filter_cons, h1, if_true, List.map_cons, mkAssign_staffId,
          mkAssign_date, h2, List.sum_cons, ih, Bool.and_assoc, Bool.true_and, durByCode,
          mkAssign_slot]
      · have h2' : ((a.1 == e.id) && (weekKey a.2.1 == wk)) = false := by simpa using h2
        simp only [List.filter_cons, h1, if_true, List.map_cons, mkAssign_staffId,
          mkAssign_date, h2', Bool.false_eq_true, if_false, ih, Bool.and_assoc,
          Bool.true_and, Bool.and_false, List.sum_cons]
        omega
    · have h1' : v.x a = false := by simpa using h1
      simp only [List.filter_cons, h1', Bool.false_eq_true, if_false, ih, Bool.false_and,
        List.map_cons, List.sum_cons]
      omega



lemma staff_block_sum (r : SolverRequestModel) (e : StaffModel) (G : XKey → ℕ) :
    ((staffXKeys r e).map G).sum =
      ((get_dates r.horizon).map (fun d =>
        (r.wards.map (fun w =>
          (r.shiftTypes.map (fun st =>
            if hasDemand r (d, w.id, st.code) then G (e.id, d, w.id, st.code) else 0)).sum)).sum)).sum := by
  unfold staffXKeys
  rw [sum_bind]
  apply sum_congr
  intro d _
  rw [sum_bind]
  apply sum_congr
  intro w _
  rw [sum_bind]
  apply sum_congr
  intro st _
  by_cases hc : hasDemand r (d, w.id, st.code) = true
  · simp [hc]
  · simp [hc]

lemma sum_bind_id {α : Type} (l : List α) (f : α → List ℕ) :
    (l.bind f).sum = (l.map (fun a => (f a).sum)).sum := by
  induction l with
  | nil => rfl
  | cons a t ih => simp [List.cons_bind, ih]

lemma weekLHS_sum (r : SolverRequestModel) (v : Valuation) (e : StaffModel) (wk : Nat) :
    weekLHS r v e wk =
      ((get_dates r.horizon).map (fun d =>
        if weekKey d == wk then
          (r.shiftTypes.map (fun st =>
            (r.wards.map (fun w =>
              if decide ((e.id, d, w.id, st.code) ∈ xKeys r) then
                (if v.x (e.id, d, w.id, st.code) then st.durationMinutes else 0)
              else 0)).sum)).sum
        else 0)).sum := by
  unfold weekLHS binDates
  rw [sum_bind_id, sum_filter]
  apply sum_congr
  intro d _
  by_cases hd : (weekKey d == wk) = true
  · simp only [hd, if_true]
    rw [sum_bind_id]
    apply sum_congr
    intro st _
    rw [sum_filterMap_ite]
  · simp only [hd, Bool.false_eq_true, if_false]



lemma assigned_eq_weekLHS (r : SolverRequestModel) (v : Valuation) (e : StaffModel)
    (wk : Nat) (hids : (r.staff.map (fun x => x.id)).Nodup)
    (hcodes : (r.shiftTypes.map (fun st => st.code)).Nodup)
    (he : e ∈ r.staff) :
    assignedWeekMinutes r e wk (extract r v) = weekLHS r v e wk := by
  have hzero : ∀ e' ∈ r.staff, e'.id ≠ e.id →
      ((staffXKeys r e').map (fun k => if v.x k && (k.1 == e.id) && (weekKey k.2.1 == wk)
        then durOfSlot r k.2.2.2 else 0)).sum = 0 := by
    intro e' _ hne
    apply List.sum_eq_zero
    intro x hx
    obtain ⟨k, hk, hkx⟩ := List.mem_map.mp hx
    rw [← hkx]
    have hk1 : k.1 = e'.id := staffXKeys_staffId hk
    have hb : (k.1 == e.id) = false := by
      rw [hk1]
      simpa using hne
    simp [hb]
  calc assignedWeekMinutes r e wk (extract r v)
      = ((xKeys r).map (fun k => if v.x k && (k.1 == e.id) && (weekKey k.2.1 == wk)
          then durOfSlot r k.2.2.2 else 0)).sum := by
        rw [assignedWeekMinutes, extract_eq_map]
        exact assigned_sum_general r v e wk (xKeys r)
    _ = (r.staff.map (fun e' => ((staffXKeys r e').map
          (fun k => if v.x k && (k.1 == e.id) && (weekKey k.2.1 == wk)
            then durOfSlot r k.2.2.2 else 0)).sum)).sum := by
        rw [xKeys]
        exact sum_bind _ _ _
    _ = ((staffXKeys r e).map (fun k => if v.x k && (k.1 == e.id) && (weekKey k.2.1 == wk)
          then durOfSlot r k.2.2.2 else 0)).sum :=
        sum_single _ (fun x => x.id) e r.staff hids he hzero
    _ = weekLHS r v e wk := by
        rw [staff_block_sum, weekLHS_sum]
        apply sum_congr
        intro d hd
        rw [sum_map_comm]
        by_cases hwkd : (weekKey d == wk) = true
        · simp only [hwkd, if_true]
          apply sum_congr
          intro st hst
          apply sum_congr
          intro w hw
          by_cases hdem : hasDemand r (d, w.id, st.code) = true
          · have hmem : ((e.id, d, w.id, st.code) ∈ xKeys r) :=
              (mem_xKeys_iff he hd hw hst).mpr hdem
            simp [hdem, hmem, hwkd, durOfSlot_eq hcodes hst]
          · have hmem : ¬((e.id, d, w.id, st.code) ∈ xKeys r) := fun hm =>
              hdem ((mem_xKeys_iff he hd hw hst).mp hm)
            simp [hdem, hmem]
        · have hwkd' : (weekKey d == wk) = false := by simpa using hwkd
          simp only [hwkd', Bool.false_eq_true, if_false]
          apply List.sum_eq_zero
          intro x hx
          obtain ⟨st, _, hstx⟩ := List.mem_map.mp hx
          rw [← hstx]
          apply List.sum_eq_zero
          intro y hy
          obtain ⟨w, _, hwy⟩ := List.mem_map.mp hy
          rw [← hwy]
          simp [hwkd']

/-! Claim theorems. -/

/-- Claim C1 (code_bug evidence).  The source's `_insufficient_rest` compares
`start2 - end1` with both clock times on the same nominal day (it never adds
the +24 h that placing s2 on day t+1 implies), so it marks the pair
(DAY 08:00-16:00, DAY 08:00-16:00) forbidden although the actual rest
between the day-t end and the day-t+1 start is 16 hours, well above the 11
hours the claim (with the spec's default minRestHours = 11) requires. -/
theorem c1_forbidden_adjacency_code_eval :
    insufficient_rest dayShift dayShift = true ∧
    specForbidden 11 dayShift dayShift = false ∧
    ((dayShift.startTime : Int) + 1440) - (dayShift.endTime : Int) = 16 * 60 :=
  ⟨by decide, by decide, by decide⟩

/-- Claim C2 counterexample.  For the S2 input (instantiated so that the
weekly cap admits an assignment, as S1's expected one-assignment outcome
requires), an optimal valuation exists and every optimal valuation yields a
non-empty assignment list: the dominant utilisation weight D rewards
assigning the staff member even though the slack stays 1. -/
theorem c2_counterexample :
    (∃ v : Valuation, OptimalValuation r2 v) ∧
    (∀ v : Valuation, OptimalValuation r2 v → solveAssignments r2 v ≠ []) :=
  ⟨⟨vStar, vStar_opt⟩, fun v hv => by
    rw [opt_extract v hv]
    exact List.cons_ne_nil _ _⟩

/-- Claim C2 amended.  For the S2 input the solve returns exactly one
assignment (the MRI-skilled staff member is assigned to the cell while
contributing no skill), the slack u for (date, ward, slot, General) equals
1, and the diagnostics summary reports total_unmet = 1. -/
theorem c2_amended_one_assignment (v : Valuation) (hv : OptimalValuation r2 v) :
    solveAssignments r2 v = [asgAlice] ∧ v.u uk2 = 1 ∧
    (solveDiagnostics r2 EngineStatus.optimal v).summary.total_unmet = 1 :=
  ⟨opt_extract v hv, feasible_r2_u v hv.1, unmet_r2 v⟩

/-- Witness for the amended claim C2 at the concrete optimal valuation. -/
theorem c2_witness :
    solveAssignments r2 vStar = [asgAlice] ∧ vStar.u uk2 = 1 ∧
    (solveDiagnostics r2 EngineStatus.optimal vStar).summary.total_unmet = 1 :=
  c2_amended_one_assignment vStar vStar_opt

/-- Claim C3 counterexample.  A request carrying one lock (whose cell has no
demand, so no variable exists) has an optimal solve outcome containing no
assignment for the lock, while the diagnostics coincide with the
diagnostics for the same request with the lock deleted: nothing records the
lock as dropped. -/
theorem c3_counterexample :
    OptimalValuation r3 v0 ∧
    r3.locks = [{ staffId := "alice", wardId := "W1", date := d0, slot := "DAY" }] ∧
    solveAssignments r3 v0 = [] ∧
    solveDiagnostics r3 EngineStatus.optimal v0 =
      solveDiagnostics { r3 with locks := [] } EngineStatus.optimal v0 :=
  ⟨⟨rfl, fun v' _ => le_of_eq (rfl : objective r3 v0 = objective r3 v')⟩, rfl, rfl, rfl⟩

/-- Claim C3 amended.  Locks are ignored entirely: no component of the model
or of the output depends on the locks list, and the diagnostics notes are
the fixed constant, so no lock is fixed to 1 and no dropped lock is ever
recorded. -/
theorem c3_locks_ignored (r : SolverRequestModel) (l : List LockModel)
    (st : EngineStatus) (v : Valuation) (t : Nat) :
    feasible { r with locks := l } v = feasible r v ∧
    objective { r with locks := l } v = objective r v ∧
    solveAssignments { r with locks := l } v = solveAssignments r v ∧
    solveDiagnostics { r with locks := l } st v = solveDiagnostics r st v ∧
    calculate_metrics { r with locks := l } (solveAssignments { r with locks := l } v) t =
      calculate_metrics r (solveAssignments r v) t ∧
    (solveDiagnostics r st v).notes = ["Validation temporarily disabled"] :=
  ⟨rfl, rfl, rfl, rfl, rfl, rfl⟩

/-- Claim C4 counterexample.  When the engine status is Infeasible the
packaged diagnostics still carry infeasible = false (and extraction still
runs on the incumbent), so the claimed conjunction fails. -/
theorem c4_counterexample :
    ¬ (solveAssignments r2 vStar = [] ∧
       (solveDiagnostics r2 EngineStatus.infeasible vStar).infeasible = true) := by
  intro hc
  exact Bool.false_ne_true hc.2

/-- Claim C4 amended.  `solve` ignores the engine status entirely: the
diagnostics are the same for every status, infeasible is always false, and
the assignment list is always the extraction from the incumbent valuation. -/
theorem c4_engine_status_ignored (r : SolverRequestModel) (st st' : EngineStatus)
    (v : Valuation) :
    solveDiagnostics r st v = solveDiagnostics r st' v ∧
    (solveDiagnostics r st v).infeasible = false ∧
    solveAssignments r v = extract r v :=
  ⟨rfl, rfl, rfl⟩

/-- Claim C5.  For every staff member e and every week bin b with member
dates Db inside the horizon, every returned solution satisfies: the sum of
durationMinutes over e's assignments on dates in Db is at most
cap(e, b) = floor(contractHoursPerWeek * 60 * |Db| / 7) (the code's cap,
which floors the contracted minutes first, is at most the claim's cap).
Staff ids and slot codes are assumed distinct, as the data-model invariant
"identifiers globally unique" states. -/
theorem c5_weekly_contract_cap (r : SolverRequestModel) (v : Valuation)
    (hids : (r.staff.map (fun x => x.id)).Nodup)
    (hcodes : (r.shiftTypes.map (fun st => st.code)).Nodup)
    (hfeas : feasible r v = true) :
    ∀ e ∈ r.staff, ∀ wk ∈ weekKeys r,
      assignedWeekMinutes r e wk (extract r v) ≤ specWeekCap e (binDates r wk).length := by
  intro e he wk hwk
  have hw : weeklyOK r v = true := by
    simp only [feasible, Bool.and_eq_true] at hfeas
    exact hfeas.2
  rw [weeklyOK, List.all_eq_true] at hw
  have hw2 := hw e he
  rw [List.all_eq_true] at hw2
  have hw3 := hw2 wk hwk
  rw [decide_eq_true_eq] at hw3
  calc assignedWeekMinutes r e wk (extract r v) = weekLHS r v e wk :=
        assigned_eq_weekLHS r v e wk hids hcodes he
    _ ≤ prorated_cap (contract_minutes e) (binDates r wk).length := hw3
    _ ≤ specWeekCap e (binDates r wk).length := prorated_le_spec e _

/-- Witness for claim C5 at a concrete request and feasible valuation. -/
theorem c5_witness :
    (r8.staff.map (fun x => x.id)).Nodup ∧
    (r8.shiftTypes.map (fun st => st.code)).Nodup ∧
    feasible r8 v8 = true ∧
    (∀ e ∈ r8.staff, ∀ wk ∈ weekKeys r8,
      assignedWeekMinutes r8 e wk (extract r8 v8) ≤ specWeekCap e (binDates r8 wk).length) :=
  ⟨by decide, by decide, by decide,
    c5_weekly_contract_cap r8 v8 (by decide) (by decide) (by decide)⟩

/-- Claim C6.  The returned fairnessNightStd metric is the population
standard deviation (square root of the population variance) of the
night-shift counts of the staff members holding at least one night
assignment, and it is 0 whenever fewer than two staff members have night
shifts. -/
theorem c6_fairness_night_std (r : SolverRequestModel) (asgs : List AssignmentModel) :
    fairnessNightStd r asgs = Real.sqrt ((popVariance (nightCounts r asgs) : ℚ) : ℝ) ∧
    ((nightCounts r asgs).length < 2 → fairnessNightStd r asgs = 0) := by
  constructor
  · by_cases hl : 1 < (nightCounts r asgs).length
    · simp [fairnessNightStd, hl]
    · have hv : popVariance (nightCounts r asgs) = 0 := popVariance_small _ (by omega)
      simp [fairnessNightStd, hl, hv]
  · intro hlt
    have hl : ¬ 1 < (nightCounts r asgs).length := by omega
    simp [fairnessNightStd, hl]

/-- Witness for claim C6 at a concrete request and assignment list. -/
theorem c6_witness :
    fairnessNightStd r2 [] = Real.sqrt ((popVariance (nightCounts r2 []) : ℚ) : ℝ) ∧
    ((nightCounts r2 []).length < 2 → fairnessNightStd r2 [] = 0) :=
  c6_fairness_night_std r2 []

/-- Claim C7 counterexample.  With one honoured prefer-on and one honoured
prefer-off preference the metric returns 1/2, while the claimed formula
(honoured-on minus honoured-off over total, clamped) returns 0. -/
theorem c7_counterexample :
    preference_satisfaction r7 a7 = 1 / 2 ∧ specPreferenceSatisfaction r7 a7 = 0 ∧
    preference_satisfaction r7 a7 ≠ specPreferenceSatisfaction r7 a7 := by
  refine ⟨?_, ?_, ?_⟩ <;>
    norm_num +decide [preference_satisfaction, satisfied_preferences,
      specPreferenceSatisfaction, honouredOn, honouredOff, r7, a7, prefMatch,
      asgAlice, d0]

/-- Claim C7 amended.  preferenceSatisfaction equals (honoured prefer-on
minus VIOLATED prefer-off, i.e. prefer-off preferences whose staff member is
assigned that date and whose preferOn flag is unset) divided by
max(1, total), clamped below at 0; the resulting value always lies in
[0, 1]. -/
theorem c7_preference_satisfaction (r : SolverRequestModel) (asgs : List AssignmentModel) :
    preference_satisfaction r asgs =
      max 0 (((honouredOn r asgs : ℚ) - (violatedOff r asgs : ℚ)) /
        (max 1 r.preferences.length : ℚ)) ∧
    0 ≤ preference_satisfaction r asgs ∧ preference_satisfaction r asgs ≤ 1 := by
  have hform : preference_satisfaction r asgs =
      max 0 (((honouredOn r asgs : ℚ) - (violatedOff r asgs : ℚ)) /
        (max 1 r.preferences.length : ℚ)) := by
    unfold preference_satisfaction
    rw [satisfied_preferences_eq]
    push_cast
    rfl
  refine ⟨hform, le_max_left _ _, ?_⟩
  rw [hform]
  have hMpos : (0 : ℚ) < (max 1 r.preferences.length : ℚ) := by
    have : (1 : ℚ) ≤ (max 1 r.preferences.length : ℚ) := by
      exact_mod_cast Nat.le_max_left 1 r.preferences.length
    linarith
  refine max_le (by norm_num) ?_
  rw [div_le_one hMpos]
  have h1 : (honouredOn r asgs : ℚ) ≤ (r.preferences.length : ℚ) := by
    exact_mod_cast List.length_filter_le _ _
  have h2 : (r.preferences.length : ℚ) ≤ (max 1 r.preferences.length : ℚ) := by
    exact_mod_cast Nat.le_max_right 1 r.preferences.length
  have h3 : (0 : ℚ) ≤ (violatedOff r asgs : ℚ) := by positivity
  linarith

/-- Claim C8 counterexample.  A feasible solver state over a staff list
[zed, alice] extracts in creation order (zed first), which is not sorted
ascending by the key (staff, date, slot, ward). -/
theorem c8_counterexample :
    feasible r8 v8 = true ∧
    extract r8 v8 =
      [{ staffId := "zed", wardId := "W1", date := d0, slot := "DAY",
         shiftTypeId := "st-day" }, asgAlice] ∧
    sortedByKey (extract r8 v8) = false :=
  ⟨by decide, by decide, by decide⟩

/-- Claim C8 amended.  The extractor emits one Assignment per x-variable
valued 1 (shiftTypeId resolved from the first shift type matching the slot
code), in variable-creation order — the request's staff order, then date
order, then ward order, then slot order; no sort by (staff, date, slot,
ward) is applied. -/
theorem c8_extractor_order (r : SolverRequestModel) (v : Valuation) :
    extract r v = ((xKeys r).filter (fun k => v.x k)).map (mkAssign r) :=
  extract_eq_map r v

/-- Claim C9.  The built model (variables, constraints, objective) and the
whole solve output are identical for any two requests differing only in the
rules fields and/or the hints list: none of the embedded definitions reads
`rules` or `hints` (the one-shift-per-day constraints are emitted and
`_insufficient_rest`'s hardcoded 11-hour threshold is used regardless, and
`_add_hints` is a no-op). -/
theorem c9_rules_hints_noninterference (r : SolverRequestModel) (ru : RulesModel)
    (hs : List HintModel) (st : EngineStatus) (v : Valuation) (t : Nat) :
    xKeys { r with rules := ru, hints := hs } = xKeys r ∧
    yKeys { r with rules := ru, hints := hs } = yKeys r ∧
    uVars { r with rules := ru, hints := hs } = uVars r ∧
    feasible { r with rules := ru, hints := hs } v = feasible r v ∧
    oneShiftOK { r with rules := ru, hints := hs } v = oneShiftOK r v ∧
    objective { r with rules := ru, hints := hs } v = objective r v ∧
    solveAssignments { r with rules := ru, hints := hs } v = solveAssignments r v ∧
    solveDiagnostics { r with rules := ru, hints := hs } st v = solveDiagnostics r st v ∧
    calculate_metrics { r with rules := ru, hints := hs }
        (extract { r with rules := ru, hints := hs } v) t =
      calculate_metrics r (extract r v) t :=
  ⟨rfl, rfl, rfl, rfl, rfl, rfl, rfl, rfl, rfl⟩

/-- Claim C10.  A request with an empty demand list short-circuits model
building: no x, y or u variable is created, the returned assignment list is
empty, and the diagnostics summary reports total_required = 0 and
total_unmet = 0 (the embedding is total, so no exception is possible). -/
theorem c10_empty_demand (r : SolverRequestModel) (st : EngineStatus) (v : Valuation)
    (h : r.demand = []) :
    xKeys r = [] ∧ yKeys r = [] ∧ uVars r = [] ∧
    solveAssignments r v = [] ∧
    (solveDiagnostics r st v).summary.total_required = 0 ∧
    (solveDiagnostics r st v).summary.total_unmet = 0 := by
  have hd : ∀ c, hasDemand r c = false := by
    intro c
    simp [hasDemand, h]
  have hx : xKeys r = [] := by
    unfold xKeys staffXKeys
    refine bind_nil_of_forall _ _ (fun e _ => ?_)
    refine bind_nil_of_forall _ _ (fun d _ => ?_)
    refine bind_nil_of_forall _ _ (fun w _ => ?_)
    refine bind_nil_of_forall _ _ (fun s _ => ?_)
    simp [hd]
  have hy : yKeys r = [] := by
    unfold yKeys
    refine bind_nil_of_forall _ _ (fun e _ => ?_)
    refine bind_nil_of_forall _ _ (fun d _ => ?_)
    refine bind_nil_of_forall _ _ (fun w _ => ?_)
    refine bind_nil_of_forall _ _ (fun s _ => ?_)
    refine bind_nil_of_forall _ _ (fun k _ => ?_)
    simp [hd]
  have hreq : demand_req r = [] := by
    simp [demand_req, h]
  have hu : uVars r = [] := by
    unfold uVars
    refine bind_nil_of_forall _ _ (fun d _ => ?_)
    refine bind_nil_of_forall _ _ (fun w _ => ?_)
    refine bind_nil_of_forall _ _ (fun s _ => ?_)
    refine bind_nil_of_forall _ _ (fun k _ => ?_)
    rw [hreq]
    simp [lookupAssoc]
  refine ⟨hx, hy, hu, ?_, ?_, ?_⟩
  · show extract r v = []
    rw [extract_eq_map, hx]
    rfl
  · show ((r.demand.map (fun dm => totalRequired dm.requirements)).sum) = 0
    rw [h]
    rfl
  · show total_unmet_calc r v = 0
    simp [total_unmet_calc, h]

/-- Witness for claim C10 at a concrete empty-demand request. -/
theorem c10_witness :
    xKeys rEmptyDemand = [] ∧ yKeys rEmptyDemand = [] ∧ uVars rEmptyDemand = [] ∧
    solveAssignments rEmptyDemand v0 = [] ∧
    (solveDiagnostics rEmptyDemand EngineStatus.optimal v0).summary.total_required = 0 ∧
    (solveDiagnostics rEmptyDemand EngineStatus.optimal v0).summary.total_unmet = 0 :=
  c10_empty_demand rEmptyDemand EngineStatus.optimal v0 rfl

end MediRota
